import Mathlib

/-!
Verification of the Go debug-adapter bridge (`Source/debugAdapter/goDebug.ts`).

Each definition below is a shallow embedding of a function or code block of
the source file; the comment above each names the source symbol it embeds.
Paths are modelled as `List Char`, other strings as `String`.  JS string
primitives (`replace` with a string pattern replaces the first occurrence,
`indexOf`, `substr`, `split`/`join`, `startsWith`, `endsWith`) are given
faithful list-level models.
-/

/-- Models JS `String.endsWith`: the second string is a suffix of the first. -/
def strEndsWith (s suffix : String) : Bool :=
  List.isSuffixOf suffix.data s.data

/-- Models JS `String.startsWith`: the second string is a prefix of the first. -/
def strStartsWith (s pre : String) : Bool :=
  List.isPrefixOf pre.data s.data

/-! ## Continue epoch (`GoDebugSession.continue`, lines 2585-2626)

The session fields touched by `continue` are `continueEpoch` and
`continueRequestRunning`; no other code path writes them (the only
assignments in the source are at lines 2586, 2590, 2594). -/

structure ContState where
  continueEpoch : Nat
  continueRequestRunning : Bool
deriving DecidableEq, Repr

/-- Embeds the prologue of `GoDebugSession.continue`:
`this.continueEpoch++; const closureEpoch = this.continueEpoch;
this.continueRequestRunning = true;`.  Returns the new session state and the
epoch captured by the completion closure. -/
def doContinue (s : ContState) : ContState × Nat :=
  let e := s.continueEpoch + 1
  (⟨e, true⟩, e)

/-- Embeds the epoch check at the head of the `continue` completion callback:
`if (closureEpoch === this.continueEpoch) { this.continueRequestRunning = false; }`.
The rest of the callback (recording `debugState`, `handleReenterDebug`)
does not touch the epoch or the flag. -/
def continueCompletion (s : ContState) (closureEpoch : Nat) : ContState :=
  if closureEpoch = s.continueEpoch then { s with continueRequestRunning := false } else s

/-! ## Threads request (`GoDebugSession.threadsRequest`, lines 1262-1326) -/

/-- The `exited` field of the delve `DebuggerState` is the only field the
threads request inspects; the remaining fields are irrelevant here. -/
structure DebuggerStateM where
  exited : Bool
deriving DecidableEq, Repr

structure GoroutineM where
  id : Nat
  funcName : Option String
  file : String
  line : Nat
deriving DecidableEq, Repr

structure ThreadM where
  id : Nat
  threadName : String
deriving DecidableEq, Repr

/-- Thread naming in `threadsRequest`:
`goroutine.userCurrentLoc.function ? function.name : file + "@" + line`. -/
def goroutineThreadName (g : GoroutineM) : String :=
  match g.funcName with
  | some f => f
  | none => g.file ++ "@" ++ toString g.line

/-- Embeds `GoDebugSession.threadsRequest`.  `listGoroutines` is the outcome
of the `ListGoroutines` RPC (already unwrapped from the v2 envelope).
The result is either an error response `(code, message)` or a successful
thread list. -/
def threadsRequest (continueRequestRunning : Bool) (debugState : Option DebuggerStateM)
    (listGoroutines : Except String (List GoroutineM)) :
    Except (Nat × String) (List ThreadM) :=
  if continueRequestRunning then
    .ok [⟨1, "Dummy"⟩]
  else if (match debugState with | some ds => ds.exited | none => false) then
    -- the callback checks `this.debugState && this.debugState.exited` before `err`
    .ok []
  else
    match listGoroutines with
    | .error e => .error (2003, e)
    | .ok gs =>
      let threads := gs.map fun g => ThreadM.mk g.id (goroutineThreadName g)
      .ok (if threads.isEmpty then [⟨1, "Dummy"⟩] else threads)

/-! ## Set variable (`GoDebugSession.setVariableRequest`, lines 1973-2008) -/

structure RpcCallM where
  method : String
  goroutineID : Nat
  symbol : String
  value : String
deriving DecidableEq, Repr

/-- Embeds `GoDebugSession.setVariableRequest`.  `setResult` is the outcome of
the single `SetSymbol`/`Set` RPC (`none` = success, `some e` = error).
Returns the exact list of backend RPCs issued and the response: on success
the body value is `args.value` verbatim. -/
def setVariableRequest (isApiV1 : Bool) (currentGoroutineId : Nat)
    (argName argValue : String) (setResult : Option String) :
    List RpcCallM × Except (Nat × String) String :=
  let call : RpcCallM :=
    ⟨if isApiV1 then "SetSymbol" else "Set", currentGoroutineId, argName, argValue⟩
  ([call],
    match setResult with
    | some err => .error (2010, "Failed to set variable: " ++ err)
    | none => .ok argValue)

/-! ## Launch / attach validation (`GoDebugSession.launchRequest` lines
1067-1082, `GoDebugSession.attachRequest` lines 1084-1103)

JS truthiness: a missing attribute and the values `""` / `0` are all falsy. -/

/-- Embeds `launchRequest`: a falsy `program` sends ErrorResponse 3000 and
returns; otherwise `initLaunchAttachRequest` is invoked.  Result: the list of
error codes sent immediately, and whether `initLaunchAttachRequest` runs. -/
def launchRequest (program : Option String) : List Nat × Bool :=
  if program = none ∨ program = some "" then ([3000], false)
  else ([], true)

/-- Embeds `attachRequest`: mode `"local"` without a truthy `processId` (or
mode `"remote"` without a truthy `port`) sends ErrorResponse 3000, but the
source has no `return` there, so `initLaunchAttachRequest` is invoked
unconditionally afterwards. -/
def attachRequest (mode : String) (processId : Option Nat) (port : Option Nat) :
    List Nat × Bool :=
  let pidFalsy := match processId with | none => true | some n => n = 0
  let portFalsy := match port with | none => true | some n => n = 0
  let errs :=
    if mode == "local" && pidFalsy then [3000]
    else if mode == "remote" && portFalsy then [3000]
    else []
  (errs, true)

/-! ## Session close (`Delve.close`, lines 903-989)

The 1-second watchdog models real time and is omitted: the trace below is
the non-timeout path of `close`.  `haltErr` is the rejection of the
`Command{halt}` RPC (`none` = resolved), `detachErr` that of `Detach`. -/

inductive DetachArg where
  /-- API v1: the bare boolean argument literally passed (`true` in source). -/
  | bare (b : Bool)
  /-- API v2: the `{ Kill: b }` record. -/
  | kill (b : Bool)
deriving DecidableEq, Repr

inductive CloseAction where
  | endConnection
  | haltCommand
  | detach (arg : DetachArg)
  | forceCleanup
deriving DecidableEq, Repr

structure CloseCfg where
  noDebug : Bool
  isRemoteDebugging : Bool
  /-- Mirrors `this.request === "launch"`. -/
  isLaunchRequest : Bool
  /-- Mirrors `!!this.debugProcess`. -/
  hasDebugProcess : Bool
  isApiV1 : Bool
deriving DecidableEq, Repr

def exitedSuffix : String := "has exited with status 0"

/-- Embeds `Delve.close` as the trace of backend actions it performs
(non-timeout path).  Mirrors the source:
`targetHasExited = haltErrMsg && haltErrMsg.endsWith("has exited with status 0")`;
`shouldDetach = !haltErrMsg || targetHasExited`;
`shouldForceClean = !shouldDetach && isLocalDebugging`, re-assigned to
`isLocalDebugging` if the Detach call rejects. -/
def closeActions (cfg : CloseCfg) (haltErr : Option String) (detachErr : Option String) :
    List CloseAction :=
  if cfg.noDebug then []
  else if cfg.isRemoteDebugging then [.endConnection]
  else
    let isLocalDebugging := cfg.isLaunchRequest && cfg.hasDebugProcess
    let targetHasExited :=
      match haltErr with
      | none => false
      | some m => (decide (m ≠ "")) && strEndsWith m exitedSuffix
    let shouldDetach :=
      (match haltErr with | none => true | some m => decide (m = "")) || targetHasExited
    let shouldForceClean0 := !shouldDetach && isLocalDebugging
    let detachTrace : List CloseAction :=
      if shouldDetach then
        [.detach (if cfg.isApiV1 then .bare true else .kill isLocalDebugging)]
      else []
    let shouldForceClean :=
      if shouldDetach && detachErr.isSome then isLocalDebugging else shouldForceClean0
    [.haltCommand] ++ detachTrace ++ (if shouldForceClean then [.forceCleanup] else [])

/-! ## Fully-qualified names (`GoDebugSession.addFullyQualifiedName`, lines
2679-2687) and the shadowed-variable annotation in `scopesRequest`
(lines 1491-1534). -/

inductive DebugVariable : Type where
  | mk (name : String) (flags : Nat) (declLine : Nat) (fullyQualifiedName : String)
      (children : List DebugVariable) : DebugVariable

def DebugVariable.name : DebugVariable → String
  | .mk n _ _ _ _ => n

def DebugVariable.flags : DebugVariable → Nat
  | .mk _ f _ _ _ => f

def DebugVariable.declLine : DebugVariable → Nat
  | .mk _ _ d _ _ => d

def DebugVariable.fqn : DebugVariable → String
  | .mk _ _ _ q _ => q

def DebugVariable.children : DebugVariable → List DebugVariable
  | .mk _ _ _ _ c => c

def DebugVariable.withName : DebugVariable → String → DebugVariable
  | .mk _ f d q c, s => .mk s f d q c

def DebugVariable.withFqn : DebugVariable → String → DebugVariable
  | .mk n f d _ c, s => .mk n f d s c

instance : Inhabited DebugVariable := ⟨.mk "" 0 0 "" []⟩

/-- Embeds `GoDebugSession.addFullyQualifiedName`: each listed variable's own
name becomes its fqn, and each of its children is assigned the parent's
name (`child.fullyQualifiedName = local.name` in the source, with no `"." +
child.name` component). -/
def addFullyQualifiedName (vars : List DebugVariable) : List DebugVariable :=
  vars.map fun v =>
    match v with
    | .mk n f d _ c => .mk n f d n (c.map fun child => child.withFqn n)

/-! ## Shadowed-variable annotation (`GoDebugSession.scopesRequest`,
lines 1491-1534) -/

/-- Tests the flag `GoVariableFlags.VariableShadowed = 2`; the source skips variables with
`(vars[i].flags & GoVariableFlags.VariableShadowed) === 0`. -/
def isShadowed (v : DebugVariable) : Bool :=
  v.flags &&& 2 != 0

/-- Indices of the shadowed variables named `n`, in order of appearance:
the array the source accumulates in `shadowedVars` under key `n`. -/
def groupIdxAux (n : String) : List DebugVariable → Nat → List Nat
  | [], _ => []
  | v :: rest, i =>
    if isShadowed v && v.name == n then i :: groupIdxAux n rest (i + 1)
    else groupIdxAux n rest (i + 1)

def groupIdx (vars : List DebugVariable) (n : String) : List Nat :=
  groupIdxAux n vars 0

/-- Keys of a JS `Map` populated with set-if-absent, in insertion order:
the first occurrence of each name survives. -/
def dedupKeepFirst : List String → List String
  | [] => []
  | n :: rest => n :: dedupKeepFirst (rest.filter fun m => m ≠ n)
termination_by l => l.length
decreasing_by
  simp only [List.length_cons]
  exact Nat.lt_succ_of_le (List.length_filter_le _ _)

/-- Iteration order of `shadowedVars.values()`: names of shadowed variables
in first-occurrence order. -/
def shadowedNames (vars : List DebugVariable) : List String :=
  dedupKeepFirst ((vars.filter fun v => isShadowed v).map DebugVariable.name)

def declLineAt (vars : List DebugVariable) (i : Nat) : Nat :=
  (vars.getD i default).declLine

/-- Models `svIndices.sort((lhs, rhs) => vars[rhs].DeclLine - vars[lhs].DeclLine)`:
the stable sort by `DeclLine` descending (JS `Array.prototype.sort` is
stable; stable + sorted determines the output uniquely). -/
def sortDesc (vars : List DebugVariable) (idxs : List Nat) : List Nat :=
  List.insertionSort (fun i j => declLineAt vars j ≤ declLineAt vars i) idxs

def wrapParens : Nat → String → String
  | 0, s => s
  | k + 1, s => wrapParens k ("(" ++ s ++ ")")

/-- One execution of
`for (count = -1; count < scope; ++count) vars[svIndex].name = `(...)`` :
the entry at `i` has its name wrapped in `wraps` layers of parentheses. -/
def renameAt (vars : List DebugVariable) (i : Nat) (wraps : Nat) : List DebugVariable :=
  match vars.get? i with
  | some v => vars.set i (v.withName (wrapParens wraps v.name))
  | none => vars

/-- The loop over a sorted group: the member at position `scope` (starting
at 0) receives `scope + 1` layers of parentheses. -/
def applyGroupAux : List DebugVariable → List Nat → Nat → List DebugVariable
  | vs, [], _ => vs
  | vs, i :: rest, scope => applyGroupAux (renameAt vs i (scope + 1)) rest (scope + 1)

def applyGroup (vs : List DebugVariable) (idxs : List Nat) : List DebugVariable :=
  applyGroupAux vs idxs 0

/-- Embeds the shadowed-variable annotation block of `scopesRequest`: groups
are collected by name over the (unrenamed) list, each group is sorted by
`DeclLine` descending, and its k-th member is renamed with `k + 1` layers of
parentheses. -/
def annotateShadowed (vars : List DebugVariable) : List DebugVariable :=
  (shadowedNames vars).foldl (fun vs n => applyGroup vs (sortDesc vars (groupIdx vars n))) vars

/-- Example scope listing: three locals named `x`, all flagged shadowed
(flag bit 2), declared at lines 20, 15 and 25, plus an unshadowed `y`. -/
def exampleShadowVars : List DebugVariable :=
  [.mk "x" 2 20 "" [], .mk "x" 2 15 "" [], .mk "x" 2 25 "" [], .mk "y" 0 10 "" []]

/-! ## Path translation (`GoDebugSession.toDebuggerPath` lines 1154-1167,
`GoDebugSession.toLocalPath` lines 1169-1210) -/

def isSepChar (c : Char) : Bool :=
  c == '/' || c == '\\'

/-- Models `filePath.replace(/\/|\\/g, sep)` for a one-character separator
(`findPathSeparator` only ever yields `"/"` or `"\\"`). -/
def toSepList (sep : Char) (s : List Char) : List Char :=
  s.map fun c => if isSepChar c then sep else c

/-- Models JS `String.replace` with a plain string pattern: only the first
occurrence of `pat` is replaced by `repl`. -/
def replaceFirst (pat repl : List Char) : List Char → List Char
  | [] => if pat.isEmpty then repl else []
  | c :: rest =>
    if pat.isPrefixOf (c :: rest) then repl ++ (c :: rest).drop pat.length
    else c :: replaceFirst pat repl rest

/-- Models JS `String.indexOf` for a substring; `none` stands for `-1`. -/
def indexOfSub (pat : List Char) : List Char → Option Nat
  | [] => if pat.isEmpty then some 0 else none
  | c :: rest =>
    if pat.isPrefixOf (c :: rest) then some 0
    else (indexOfSub pat rest).map (· + 1)

/-- Models `s.split(fromSep).join(toSep)` for one-character separators:
each occurrence of `fromSep` becomes `toSep`. -/
def resepList (fromSep toSep : Char) (s : List Char) : List Char :=
  s.map fun c => if c = fromSep then toSep else c

def collapseDupSep (sep : Char) : List Char → List Char
  | [] => []
  | [c] => [c]
  | a :: b :: rest =>
    if a = sep ∧ b = sep then collapseDupSep sep (b :: rest)
    else a :: collapseDupSep sep (b :: rest)

/-- Models Node `path.join(a, b)` on a host whose separator is `sep`, for
segments free of `.`/`..` components: the segments are joined with `sep` and
duplicate separators are collapsed. -/
def pathJoin (sep : Char) (a b : List Char) : List Char :=
  collapseDupSep sep (a ++ [sep] ++ b)

/-- Session path configuration: `Delve.program`, `Delve.remotePath`, the two
separators chosen by `findPathSeparator`, and the process environment
(`GOROOT`, first `GOPATH` element); `[]` models an unset or empty
environment value (both falsy in JS). -/
structure PathCfg where
  program : List Char
  remotePath : List Char
  localSep : Char
  remoteSep : Char
  goroot : List Char
  gopathFirst : List Char

def srcMarker (sep : Char) : List Char :=
  [sep, 's', 'r', 'c', sep]

def modMarker (sep : Char) : List Char :=
  [sep, 'p', 'k', 'g', sep, 'm', 'o', 'd', sep]

/-- Embeds `GoDebugSession.toDebuggerPath`.  With no remote root the source
delegates to the base-class `convertClientPathToDebugger`, an identity on the
path (spec section 4.3: "if no remote root is configured, identity"). -/
def toDebuggerPath (cfg : PathCfg) (filePath : List Char) : List Char :=
  if cfg.remotePath.isEmpty then filePath
  else
    replaceFirst (toSepList cfg.remoteSep cfg.program) cfg.remotePath
      (toSepList cfg.remoteSep filePath)

/-- The generic reverse mapping at the end of `toLocalPath`:
`pathToConvert.replace(remotePath, program).split(remoteSep).join(localSep)`. -/
def toLocalPathGeneric (cfg : PathCfg) (p : List Char) : List Char :=
  resepList cfg.remoteSep cfg.localSep (replaceFirst cfg.remotePath cfg.program p)

/-- The module-cache fallback of `toLocalPath`: fires when
`<sep>pkg<sep>mod<sep>` occurs at a positive index and a GOPATH element is
known; the suffix is re-separated before joining. -/
def toLocalPathModCase (cfg : PathCfg) (p : List Char) : List Char :=
  match indexOfSub (modMarker cfg.remoteSep) p with
  | some j =>
    if cfg.gopathFirst ≠ [] ∧ 0 < j then
      pathJoin cfg.localSep cfg.gopathFirst
        (resepList cfg.remoteSep cfg.localSep (p.drop j))
    else toLocalPathGeneric cfg p
  | none => toLocalPathGeneric cfg p

/-- Embeds `GoDebugSession.toLocalPath`.  With no remote root the source
delegates to the base-class `convertDebuggerPathToClient`, an identity on the
path.  Otherwise, when the path does not start with the remote root, the
GOROOT rule fires if `<sep>src<sep>` occurs at a positive index and GOROOT is
truthy (`if (goroot && index > 0)`), then the module-cache rule, then the
generic mapping. -/
def toLocalPath (cfg : PathCfg) (pathToConvert : List Char) : List Char :=
  if cfg.remotePath.isEmpty then pathToConvert
  else if cfg.remotePath.isPrefixOf pathToConvert then toLocalPathGeneric cfg pathToConvert
  else
    match indexOfSub (srcMarker cfg.remoteSep) pathToConvert with
    | some i =>
      if cfg.goroot ≠ [] ∧ 0 < i then
        pathJoin cfg.localSep cfg.goroot (pathToConvert.drop i)
      else toLocalPathModCase cfg pathToConvert
    | none => toLocalPathModCase cfg pathToConvert

/-! ## Breakpoint reconciliation (`GoDebugSession.setBreakPoints`,
lines 2179-2365) -/

structure SourceBreakpointM where
  line : Nat
  condition : Option String
deriving DecidableEq, Repr

structure DebugBreakpointM where
  id : Nat
  file : String
  line : Nat
  cond : Option String
deriving DecidableEq, Repr

/-- The `breakpointIn` record built per request: the remote file, the
requested line and condition (`loadArgs`/`loadLocals` carry the session load
config and do not affect the response; no id is set). -/
def mkBreakpointIn (remoteFile : String) (b : SourceBreakpointM) : DebugBreakpointM :=
  ⟨0, remoteFile, b.line, b.condition⟩

def existsMsgStart : String := "Breakpoint exists at"

/-- Embeds one `CreateBreakpoint` attempt including the "already exists"
recovery: on an error starting with "Breakpoint exists at", the
`ListBreakpoints` result is searched (`Array.find`, first match) for a record
with the same line and file; any other error, a failed listing, or a missing
match yields `none` (the `null` marking the entry unverified). -/
def attemptCreate (listResult : Except String (List DebugBreakpointM))
    (bpIn : DebugBreakpointM) (createResult : Except String DebugBreakpointM) :
    Option DebugBreakpointM :=
  match createResult with
  | .ok bp => some bp
  | .error msg =>
    if strStartsWith msg existsMsgStart then
      match listResult with
      | .error _ => none
      | .ok existing =>
        existing.find? fun e => e.line == bpIn.line && e.file == bpIn.file
    else none

/-- The requested breakpoints attempted in order against the per-request
`CreateBreakpoint` outcomes (`Promise.all` preserves order). -/
def attemptAll (listResult : Except String (List DebugBreakpointM)) (remoteFile : String) :
    List SourceBreakpointM → List (Except String DebugBreakpointM) →
    List (Option DebugBreakpointM)
  | [], _ => []
  | _ :: _, [] => []
  | b :: bs, c :: cs =>
    attemptCreate listResult (mkBreakpointIn remoteFile b) c :: attemptAll listResult remoteFile bs cs

/-- One `{verified, line}` record of the `SetBreakpointsResponse`;
`line = none` models JS `undefined`. -/
structure ProtocolBreakpointM where
  verified : Bool
  line : Option Nat
deriving DecidableEq, Repr

/-- The response mapping at the end of `setBreakPoints`:
`bp ? {verified: true, line: bp.line} : {verified: false, line: args.lines[i]}`. -/
def mkBreakpointResponse (lines : List Nat) :
    List (Option DebugBreakpointM) → Nat → List ProtocolBreakpointM
  | [], _ => []
  | some bp :: rest, i => ⟨true, some bp.line⟩ :: mkBreakpointResponse lines rest (i + 1)
  | none :: rest, i => ⟨false, lines.get? i⟩ :: mkBreakpointResponse lines rest (i + 1)

/-- Embeds the response computation of `GoDebugSession.setBreakPoints`: the
per-file clear does not affect the response; each requested breakpoint is
attempted in order and the response preserves request order. -/
def setBreakPointsResponse (remoteFile : String) (requested : List SourceBreakpointM)
    (lines : List Nat) (creates : List (Except String DebugBreakpointM))
    (listResult : Except String (List DebugBreakpointM)) : List ProtocolBreakpointM :=
  mkBreakpointResponse lines (attemptAll listResult remoteFile requested creates) 0

/-- Example request: two breakpoints, lines 7 and 9. -/
def exampleRequested : List SourceBreakpointM := [⟨7, none⟩, ⟨9, none⟩]

/-- Example `CreateBreakpoint` outcomes: the first hits the "already exists"
recovery, the second fails outright. -/
def exampleCreates : List (Except String DebugBreakpointM) :=
  [.error "Breakpoint exists at /srv/app/main.go:7", .error "could not find file"]

/-- Example `ListBreakpoints` outcome: one existing record matching the
first request. -/
def exampleListing : Except String (List DebugBreakpointM) :=
  .ok [⟨3, "/srv/app/main.go", 7, none⟩]

/-! ## Theorems -/

theorem isPrefixOf_append_self (l t : List Char) : l.isPrefixOf (l ++ t) = true := by
  simp [List.isPrefixOf_iff_prefix]

theorem replaceFirst_append (pat repl t : List Char) :
    replaceFirst pat repl (pat ++ t) = repl ++ t := by
  cases pat with
  | nil =>
    cases t with
    | nil => simp [replaceFirst]
    | cons c rest => simp [replaceFirst]
  | cons p ps =>
    show replaceFirst (p :: ps) repl (p :: (ps ++ t)) = repl ++ t
    rw [replaceFirst]
    have h := isPrefixOf_append_self (p :: ps) t
    rw [List.cons_append] at h
    simp only [h, if_true]
    have : List.drop (p :: ps).length (p :: (ps ++ t)) = t := by
      simp [List.drop_left]
    rw [this]

theorem resep_toSep_cancel (localSep remoteSep : Char) (s : List Char)
    (hsepR : isSepChar remoteSep = true)
    (hs : ∀ c ∈ s, isSepChar c = true → c = localSep) :
    resepList remoteSep localSep (toSepList remoteSep s) = s := by
  induction s with
  | nil => rfl
  | cons c cs ih =>
    have hcs : ∀ x ∈ cs, isSepChar x = true → x = localSep := fun x hx hx2 =>
      hs x (List.mem_cons_of_mem c hx) hx2
    have step : resepList remoteSep localSep (toSepList remoteSep (c :: cs)) =
        (if (if isSepChar c then remoteSep else c) = remoteSep then localSep
          else if isSepChar c then remoteSep else c) ::
          resepList remoteSep localSep (toSepList remoteSep cs) := rfl
    rw [step, ih hcs]
    congr 1
    by_cases h : isSepChar c = true
    · rw [if_pos h, if_pos rfl]
      exact (hs c (List.mem_cons_self c cs) h).symm
    · rw [if_neg h]
      rw [if_neg]
      intro he
      rw [he] at h
      exact h hsepR

theorem resep_eq_self (localSep remoteSep : Char) (s : List Char)
    (hsepR : isSepChar remoteSep = true)
    (hs : ∀ c ∈ s, isSepChar c = true → c = localSep) :
    resepList remoteSep localSep s = s := by
  induction s with
  | nil => rfl
  | cons c cs ih =>
    have hcs : ∀ x ∈ cs, isSepChar x = true → x = localSep := fun x hx hx2 =>
      hs x (List.mem_cons_of_mem c hx) hx2
    have step : resepList remoteSep localSep (c :: cs) =
        (if c = remoteSep then localSep else c) :: resepList remoteSep localSep cs := rfl
    rw [step, ih hcs]
    congr 1
    by_cases h : c = remoteSep
    · have hcl : c = localSep := hs c (List.mem_cons_self c cs) (h ▸ hsepR)
      rw [if_pos h, ← hcl]
    · rw [if_neg h]

/-- Claim C4 counterexample: on an all-forward-slash configuration, the local
file `/w/proj/a\b.go` (a backslash is a legal character in a POSIX file
name) lies inside the program root `/w/proj`, yet the round trip returns
`/w/proj/a/b.go`: `toDebuggerPath` rewrites every `/` and `\` to the remote
separator, so the backslash cannot be restored.  No drive letters are
involved, so the Windows proviso does not apply. -/
theorem path_round_trip_counterexample :
    toLocalPath ⟨("/w/proj").data, ("/srv/build").data, '/', '/', [], []⟩
        (toDebuggerPath ⟨("/w/proj").data, ("/srv/build").data, '/', '/', [], []⟩
          ("/w/proj/a\\b.go").data) ≠
      ("/w/proj/a\\b.go").data := by
  decide

/-- Claim C4 (amended): with a remote root configured, for every local path
`P = program ++ rest` inside the program root in which every separator
character of the program root and of `rest` is the local separator, the
round trip `toLocalPath (toDebuggerPath P)` returns `P` exactly. -/
theorem path_round_trip (cfg : PathCfg) (rest : List Char)
    (hrp : cfg.remotePath ≠ [])
    (hsepR : isSepChar cfg.remoteSep = true)
    (hprog : ∀ c ∈ cfg.program, isSepChar c = true → c = cfg.localSep)
    (hrest : ∀ c ∈ rest, isSepChar c = true → c = cfg.localSep) :
    toLocalPath cfg (toDebuggerPath cfg (cfg.program ++ rest)) = cfg.program ++ rest := by
  have hne : cfg.remotePath.isEmpty = false := by
    cases h : cfg.remotePath with
    | nil => exact absurd h hrp
    | cons a l => rfl
  rw [toDebuggerPath]
  simp only [hne, Bool.false_eq_true, if_false]
  rw [show toSepList cfg.remoteSep (cfg.program ++ rest) =
      toSepList cfg.remoteSep cfg.program ++ toSepList cfg.remoteSep rest from
    List.map_append _ _ _]
  rw [replaceFirst_append]
  rw [toLocalPath]
  simp only [hne, Bool.false_eq_true, if_false]
  rw [if_pos (isPrefixOf_append_self cfg.remotePath (toSepList cfg.remoteSep rest))]
  rw [toLocalPathGeneric, replaceFirst_append]
  rw [show resepList cfg.remoteSep cfg.localSep
        (cfg.program ++ toSepList cfg.remoteSep rest) =
      resepList cfg.remoteSep cfg.localSep cfg.program ++
        resepList cfg.remoteSep cfg.localSep (toSepList cfg.remoteSep rest) from
    List.map_append _ _ _]
  rw [resep_eq_self cfg.localSep cfg.remoteSep cfg.program hsepR hprog,
    resep_toSep_cancel cfg.localSep cfg.remoteSep rest hsepR hrest]

theorem isEmpty_false_of_ne (l : List Char) (h : l ≠ []) : l.isEmpty = false := by
  cases l with
  | nil => exact absurd rfl h
  | cons a t => rfl

/-- Claim C5 counterexample: the remote path `/src/fmt/print.go` does not
start with the remote root, contains the `<sep>src<sep>` marker, and GOROOT
is set, yet `toLocalPath` does not return GOROOT joined with the suffix:
the source requires `index > 0` and the marker sits at index 0, so the
generic rule applies and the path is returned unchanged. -/
theorem to_local_path_src_counterexample :
    toLocalPath ⟨("/home/u/proj").data, ("/srv/build").data, '/', '/',
        ("/usr/go").data, []⟩ ("/src/fmt/print.go").data ≠
      pathJoin '/' ("/usr/go").data ("/src/fmt/print.go").data := by
  decide

/-- Claim C5 (amended): for a remote path that does not start with the
configured remote root, the fallbacks apply in order, each firing only when
its marker occurs at a strictly positive index: `<sep>src<sep>` with a
truthy GOROOT gives GOROOT joined with the suffix from the marker (not
re-separated); else `<sep>pkg<sep>mod<sep>` with a known GOPATH gives the
first GOPATH element joined with the re-separated suffix; else the generic
rule applies.  In particular `/root/go/pkg/mod/rsc.io/quote@v1.5.2/quote.go`
with GOPATH `/home/u/go` maps to
`/home/u/go/pkg/mod/rsc.io/quote@v1.5.2/quote.go`. -/
theorem to_local_path_fallback_rules (cfg : PathCfg) (p : List Char)
    (hrp : cfg.remotePath ≠ [])
    (hnp : cfg.remotePath.isPrefixOf p = false) :
    (∀ i, indexOfSub (srcMarker cfg.remoteSep) p = some i → 0 < i → cfg.goroot ≠ [] →
      toLocalPath cfg p = pathJoin cfg.localSep cfg.goroot (p.drop i)) ∧
    (∀ j, (cfg.goroot = [] ∨ indexOfSub (srcMarker cfg.remoteSep) p = none ∨
        indexOfSub (srcMarker cfg.remoteSep) p = some 0) →
      indexOfSub (modMarker cfg.remoteSep) p = some j → 0 < j → cfg.gopathFirst ≠ [] →
      toLocalPath cfg p = pathJoin cfg.localSep cfg.gopathFirst
        (resepList cfg.remoteSep cfg.localSep (p.drop j))) ∧
    ((cfg.goroot = [] ∨ indexOfSub (srcMarker cfg.remoteSep) p = none ∨
        indexOfSub (srcMarker cfg.remoteSep) p = some 0) →
      (cfg.gopathFirst = [] ∨ indexOfSub (modMarker cfg.remoteSep) p = none ∨
        indexOfSub (modMarker cfg.remoteSep) p = some 0) →
      toLocalPath cfg p = toLocalPathGeneric cfg p) ∧
    toLocalPath ⟨("/home/u/proj").data, ("/srv/build").data, '/', '/', [],
        ("/home/u/go").data⟩ ("/root/go/pkg/mod/rsc.io/quote@v1.5.2/quote.go").data =
      ("/home/u/go/pkg/mod/rsc.io/quote@v1.5.2/quote.go").data := by
  have hne : cfg.remotePath.isEmpty = false := isEmpty_false_of_ne cfg.remotePath hrp
  refine ⟨?_, ?_, ?_, ?_⟩
  · intro i hi hpos hg
    rw [toLocalPath]
    simp only [hne, Bool.false_eq_true, if_false, hnp, hi]
    rw [if_pos (⟨hg, hpos⟩ : cfg.goroot ≠ [] ∧ 0 < i)]
  · intro j hsrc hj hjpos hgp
    have hmod : toLocalPathModCase cfg p = pathJoin cfg.localSep cfg.gopathFirst
        (resepList cfg.remoteSep cfg.localSep (p.drop j)) := by
      rw [toLocalPathModCase]
      simp only [hj]
      rw [if_pos (⟨hgp, hjpos⟩ : cfg.gopathFirst ≠ [] ∧ 0 < j)]
    rw [toLocalPath]
    simp only [hne, Bool.false_eq_true, if_false, hnp]
    rcases hsrc with hg | hnone | hzero
    · cases hcase : indexOfSub (srcMarker cfg.remoteSep) p with
      | none => simp only [hcase]; exact hmod
      | some i =>
        simp only [hcase]
        rw [if_neg (fun hc => hc.1 hg)]
        exact hmod
    · simp only [hnone]; exact hmod
    · simp only [hzero]
      rw [if_neg (fun hc => absurd hc.2 (lt_irrefl 0))]
      exact hmod
  · intro hsrc hmodh
    have hmod : toLocalPathModCase cfg p = toLocalPathGeneric cfg p := by
      rw [toLocalPathModCase]
      rcases hmodh with hgp | hmnone | hmzero
      · cases hmc : indexOfSub (modMarker cfg.remoteSep) p with
        | none => simp only [hmc]
        | some j =>
          simp only [hmc]
          rw [if_neg (fun hc => hc.1 hgp)]
      · simp only [hmnone]
      · simp only [hmzero]
        rw [if_neg (fun hc => absurd hc.2 (lt_irrefl 0))]
    rw [toLocalPath]
    simp only [hne, Bool.false_eq_true, if_false, hnp]
    rcases hsrc with hg | hnone | hzero
    · cases hcase : indexOfSub (srcMarker cfg.remoteSep) p with
      | none => simp only [hcase]; exact hmod
      | some i =>
        simp only [hcase]
        rw [if_neg (fun hc => hc.1 hg)]
        exact hmod
    · simp only [hnone]; exact hmod
    · simp only [hzero]
      rw [if_neg (fun hc => absurd hc.2 (lt_irrefl 0))]
      exact hmod
  · decide

theorem to_local_path_fallback_rules_witness :
    (("/srv/build").data ≠ ([] : List Char)) ∧
    (("/srv/build").data.isPrefixOf
        ("/root/go/pkg/mod/rsc.io/quote@v1.5.2/quote.go").data = false) ∧
    toLocalPath ⟨("/home/u/proj").data, ("/srv/build").data, '/', '/', [],
        ("/home/u/go").data⟩ ("/root/go/pkg/mod/rsc.io/quote@v1.5.2/quote.go").data =
      ("/home/u/go/pkg/mod/rsc.io/quote@v1.5.2/quote.go").data :=
  ⟨by decide, by decide,
    (to_local_path_fallback_rules
      ⟨("/home/u/proj").data, ("/srv/build").data, '/', '/', [], ("/home/u/go").data⟩
      ("/root/go/pkg/mod/rsc.io/quote@v1.5.2/quote.go").data
      (by decide) (by decide)).2.2.2⟩

theorem path_round_trip_witness :
    (("/srv/build").data ≠ ([] : List Char)) ∧
    toLocalPath ⟨("/w/proj").data, ("/srv/build").data, '/', '/', [], []⟩
        (toDebuggerPath ⟨("/w/proj").data, ("/srv/build").data, '/', '/', [], []⟩
          (("/w/proj").data ++ ("/main.go").data)) =
      ("/w/proj").data ++ ("/main.go").data :=
  ⟨by decide,
    path_round_trip ⟨("/w/proj").data, ("/srv/build").data, '/', '/', [], []⟩
      ("/main.go").data (by decide) (by decide) (by decide) (by decide)⟩

theorem attemptAll_length (lst : Except String (List DebugBreakpointM)) (rf : String) :
    ∀ (bs : List SourceBreakpointM) (cs : List (Except String DebugBreakpointM)),
      cs.length = bs.length → (attemptAll lst rf bs cs).length = bs.length := by
  intro bs
  induction bs with
  | nil => intro cs h; rfl
  | cons b brest ih =>
    intro cs h
    cases cs with
    | nil => exact absurd h (by simp)
    | cons c crest =>
      simp only [attemptAll, List.length_cons] at *
      exact congrArg (· + 1) (ih crest (by omega))

theorem attemptAll_getElem (lst : Except String (List DebugBreakpointM)) (rf : String) :
    ∀ (bs : List SourceBreakpointM) (cs : List (Except String DebugBreakpointM)) (i : Nat)
      (b : SourceBreakpointM) (c : Except String DebugBreakpointM),
      bs[i]? = some b → cs[i]? = some c →
      (attemptAll lst rf bs cs)[i]? = some (attemptCreate lst (mkBreakpointIn rf b) c) := by
  intro bs
  induction bs with
  | nil => intro cs i b c hb hc; simp at hb
  | cons b0 brest ih =>
    intro cs i b c hb hc
    cases cs with
    | nil => simp at hc
    | cons c0 crest =>
      cases i with
      | zero =>
        simp only [List.getElem?_cons_zero, Option.some_inj] at hb hc
        subst hb hc
        simp [attemptAll]
      | succ n =>
        simp only [List.getElem?_cons_succ] at hb hc
        simpa only [attemptAll, List.getElem?_cons_succ] using ih crest n b c hb hc

theorem mkBreakpointResponse_length (lines : List Nat) :
    ∀ (opts : List (Option DebugBreakpointM)) (k : Nat),
      (mkBreakpointResponse lines opts k).length = opts.length := by
  intro opts
  induction opts with
  | nil => intro k; rfl
  | cons o rest ih =>
    intro k
    cases o <;> simpa [mkBreakpointResponse] using ih (k + 1)

theorem mkBreakpointResponse_getElem (lines : List Nat) :
    ∀ (opts : List (Option DebugBreakpointM)) (k i : Nat),
      (mkBreakpointResponse lines opts k)[i]? =
        (opts[i]?).map fun o =>
          match o with
          | some bp => ⟨true, some bp.line⟩
          | none => ⟨false, lines[k + i]?⟩ := by
  intro opts
  induction opts with
  | nil => intro k i; simp [mkBreakpointResponse]
  | cons o rest ih =>
    intro k i
    cases i with
    | zero => cases o <;> simp [mkBreakpointResponse]
    | succ n =>
      cases o <;>
        simp only [mkBreakpointResponse, List.getElem?_cons_succ, ih (k + 1) n] <;>
        rw [show k + 1 + n = k + (n + 1) from by omega]

/-- Claim C3: the setBreakpoints response contains one `{verified, line}`
record per requested breakpoint, in request order: `verified: true` with the
backend-reported line for each breakpoint successfully created (or adopted
after an "already exists" recovery), and `verified: false` with the
originally requested line, unchanged, for each breakpoint that could not be
created.  The source reads the unverified line from the request's parallel
`lines` array, instantiated here (as DAP clients populate it) with the
requested breakpoints' lines. -/
theorem set_breakpoints_response_shape (remoteFile : String)
    (requested : List SourceBreakpointM) (creates : List (Except String DebugBreakpointM))
    (listResult : Except String (List DebugBreakpointM))
    (hlen : creates.length = requested.length) :
    (setBreakPointsResponse remoteFile requested (requested.map SourceBreakpointM.line)
        creates listResult).length = requested.length ∧
    ∀ (i : Nat) (b : SourceBreakpointM) (c : Except String DebugBreakpointM),
      requested[i]? = some b → creates[i]? = some c →
      ((∀ (bp : DebugBreakpointM),
          attemptCreate listResult (mkBreakpointIn remoteFile b) c = some bp →
          (setBreakPointsResponse remoteFile requested (requested.map SourceBreakpointM.line)
              creates listResult)[i]? = some ⟨true, some bp.line⟩) ∧
        (attemptCreate listResult (mkBreakpointIn remoteFile b) c = none →
          (setBreakPointsResponse remoteFile requested (requested.map SourceBreakpointM.line)
              creates listResult)[i]? = some ⟨false, some b.line⟩)) := by
  constructor
  · rw [setBreakPointsResponse, mkBreakpointResponse_length,
      attemptAll_length listResult remoteFile requested creates hlen]
  · intro i b c hb hc
    have hall := attemptAll_getElem listResult remoteFile requested creates i b c hb hc
    constructor
    · intro bp hbp
      rw [setBreakPointsResponse, mkBreakpointResponse_getElem, hall, hbp]
      rfl
    · intro hnone
      rw [setBreakPointsResponse, mkBreakpointResponse_getElem, hall, hnone]
      simp only [Option.map_some, Nat.zero_add, List.getElem?_map, hb]
      rfl

theorem set_breakpoints_response_shape_witness :
    (exampleCreates.length = exampleRequested.length) ∧
    (exampleRequested[0]? = some (SourceBreakpointM.mk 7 none)) ∧
    (setBreakPointsResponse "/srv/app/main.go" exampleRequested
        (exampleRequested.map SourceBreakpointM.line) exampleCreates exampleListing)[0]? =
      some ⟨true, some 7⟩ :=
  ⟨by decide, by decide,
    ((set_breakpoints_response_shape "/srv/app/main.go" exampleRequested exampleCreates
        exampleListing (by decide)).2 0 (SourceBreakpointM.mk 7 none)
      (Except.error "Breakpoint exists at /srv/app/main.go:7")
      (by decide) rfl).1 ⟨3, "/srv/app/main.go", 7, none⟩ (by decide)⟩

/-- Claim C2: when a second continue is issued while the first is still
outstanding (no intervening stop touches the epoch or the flag), only the
completion callback of the later continue clears `continueRequestRunning`;
the stale earlier completion leaves the state unchanged, whichever order the
two completions arrive in. -/
theorem continue_epoch_single_clear (s : ContState) :
    continueCompletion (doContinue (doContinue s).1).1 (doContinue s).2 =
      (doContinue (doContinue s).1).1 ∧
    (continueCompletion (doContinue (doContinue s).1).1
        (doContinue (doContinue s).1).2).continueRequestRunning = false ∧
    (continueCompletion
        (continueCompletion (doContinue (doContinue s).1).1 (doContinue s).2)
        (doContinue (doContinue s).1).2).continueRequestRunning = false ∧
    continueCompletion
        (continueCompletion (doContinue (doContinue s).1).1
          (doContinue (doContinue s).1).2)
        (doContinue s).2 =
      continueCompletion (doContinue (doContinue s).1).1
        (doContinue (doContinue s).1).2 := by
  refine ⟨?_, ?_, ?_, ?_⟩ <;>
    simp [doContinue, continueCompletion]

/-- Claim C9: when the ListGoroutines callback of a threads request runs
while the last observed debugger state has `exited = true`, the adapter sends
a successful ThreadsResponse with an empty thread list; a ListGoroutines
error is ignored and no ErrorResponse is sent. -/
theorem threads_exited_empty (ds : DebuggerStateM)
    (res : Except String (List GoroutineM)) (h : ds.exited = true) :
    threadsRequest false (some ds) res = .ok [] := by
  simp [threadsRequest, h]

theorem threads_exited_empty_witness :
    (DebuggerStateM.mk true).exited = true ∧
    threadsRequest false (some (DebuggerStateM.mk true))
      (.error "connection closed") = .ok [] :=
  ⟨rfl, threads_exited_empty (DebuggerStateM.mk true) (.error "connection closed") rfl⟩

/-- Claim C10: a successful setVariable response reports exactly the value
string the client supplied, and the only backend RPC issued is the single
SetSymbol/Set call — the variable is not re-read from the backend. -/
theorem set_variable_echoes_value (isApiV1 : Bool) (gid : Nat) (nm v : String) :
    (setVariableRequest isApiV1 gid nm v none).2 = .ok v ∧
    (setVariableRequest isApiV1 gid nm v none).1 =
      [⟨if isApiV1 then "SetSymbol" else "Set", gid, nm, v⟩] :=
  ⟨rfl, rfl⟩

/-- Claim C7 (code bug): a launch request without a program sends
ErrorResponse 3000 and does not start the session, but an attach request with
mode "local" and no processId sends ErrorResponse 3000 and then still invokes
`initLaunchAttachRequest` (the source lacks a `return`), so the backend is
spawned and a connection attempted despite the error. -/
theorem attach_missing_processid_still_starts :
    launchRequest none = ([3000], false) ∧
    attachRequest "local" none (some 2345) = ([3000], true) :=
  ⟨rfl, rfl⟩

/-- Claim C1 counterexample: when halt fails with a message ending in
"has exited with status 0", `Delve.close` still issues a Detach RPC
(`shouldDetach = !haltErrMsg || targetHasExited` is true), contradicting the
claim that no Detach is issued; and under API v1 the Detach argument is the
literal bare boolean `true`, not `isLocalDebugging` (second conjunct:
attach-local session, where `isLocalDebugging` is false). -/
theorem close_detaches_after_exit_status_zero :
    CloseAction.detach (.kill true) ∈
      closeActions ⟨false, false, true, true, false⟩
        (some "Process 42 has exited with status 0") none ∧
    closeActions ⟨false, false, false, true, true⟩ none none =
      [.haltCommand, .detach (.bare true)] := by
  refine ⟨?_, ?_⟩ <;> decide

/-- Claim C1 (amended): during close of a non-remote, debug-enabled session,
if halt succeeds or its error message ends with "has exited with status 0",
a Detach RPC is issued — with `{Kill: isLocalDebugging}` under API v2 and the
bare boolean `true` under v1; on any other non-empty halt error no Detach is
issued, and in a local launch session forced cleanup is performed instead. -/
theorem close_halt_handling (cfg : CloseCfg) (haltErr detachErr : Option String)
    (hnd : cfg.noDebug = false) (hnr : cfg.isRemoteDebugging = false) :
    ((haltErr = none ∨ ∃ m, haltErr = some m ∧ strEndsWith m exitedSuffix = true) →
      CloseAction.detach
          (if cfg.isApiV1 then .bare true
           else .kill (cfg.isLaunchRequest && cfg.hasDebugProcess)) ∈
        closeActions cfg haltErr detachErr) ∧
    (∀ m, haltErr = some m → m ≠ "" → strEndsWith m exitedSuffix = false →
      ((∀ a, CloseAction.detach a ∉ closeActions cfg haltErr detachErr) ∧
        ((cfg.isLaunchRequest && cfg.hasDebugProcess) = true →
          closeActions cfg haltErr detachErr = [.haltCommand, .forceCleanup]))) := by
  constructor
  · intro h
    rcases h with h | ⟨m, hm, he⟩
    · subst h
      cases detachErr <;> simp [closeActions, hnd, hnr]
    · subst hm
      have hne : m ≠ "" := by
        intro h0
        rw [h0] at he
        exact absurd he (by decide)
      cases detachErr <;> simp [closeActions, hnd, hnr, he, hne]
  · intro m hm hne hef
    subst hm
    have h1 : decide (m = "") = false := by simp [hne]
    constructor
    · intro a
      by_cases hl : (cfg.isLaunchRequest && cfg.hasDebugProcess) = true <;>
        simp [closeActions, hnd, hnr, h1, hef, hl]
    · intro hl
      simp [closeActions, hnd, hnr, h1, hef, hl]

theorem close_halt_handling_witness :
    (((none : Option String) = none ∨ ∃ m, (none : Option String) = some m ∧
        strEndsWith m exitedSuffix = true)) ∧
    CloseAction.detach (.kill true) ∈
      closeActions ⟨false, false, true, true, false⟩ none none :=
  ⟨Or.inl rfl,
    (close_halt_handling ⟨false, false, true, true, false⟩ none none rfl rfl).1 (Or.inl rfl)⟩

theorem renameAt_getElem_ne (vs : List DebugVariable) (i j w : Nat) (h : i ≠ j) :
    (renameAt vs i w)[j]? = vs[j]? := by
  unfold renameAt
  cases hv : vs.get? i with
  | none => rfl
  | some v => exact List.getElem?_set_ne h

theorem renameAt_getElem_self (vs : List DebugVariable) (i w : Nat) (v : DebugVariable)
    (hv : vs[i]? = some v) :
    (renameAt vs i w)[i]? = some (v.withName (wrapParens w v.name)) := by
  obtain ⟨hlt, hval⟩ := List.getElem?_eq_some_iff.1 hv
  unfold renameAt
  rw [List.get?_eq_getElem?, hv]
  exact List.getElem?_set_self hlt

theorem applyGroupAux_getElem_not_mem :
    ∀ (idxs : List Nat) (vs : List DebugVariable) (k j : Nat), j ∉ idxs →
      (applyGroupAux vs idxs k)[j]? = vs[j]? := by
  intro idxs
  induction idxs with
  | nil => intro vs k j h; rfl
  | cons x rest ih =>
    intro vs k j h
    have hxj : x ≠ j := fun he => h (he ▸ List.mem_cons_self x rest)
    rw [show applyGroupAux vs (x :: rest) k =
        applyGroupAux (renameAt vs x (k + 1)) rest (k + 1) from rfl]
    rw [ih (renameAt vs x (k + 1)) (k + 1) j (fun hm => h (List.mem_cons_of_mem x hm))]
    exact renameAt_getElem_ne vs x j (k + 1) hxj

theorem applyGroupAux_getElem_mem :
    ∀ (idxs : List Nat) (vs : List DebugVariable) (k m i : Nat) (v : DebugVariable),
      idxs.Nodup → idxs[m]? = some i → vs[i]? = some v →
      (applyGroupAux vs idxs k)[i]? =
        some (v.withName (wrapParens (k + m + 1) v.name)) := by
  intro idxs
  induction idxs with
  | nil => intro vs k m i v hnd hm hv; simp at hm
  | cons x rest ih =>
    intro vs k m i v hnd hm hv
    rw [show applyGroupAux vs (x :: rest) k =
        applyGroupAux (renameAt vs x (k + 1)) rest (k + 1) from rfl]
    cases m with
    | zero =>
      simp only [List.getElem?_cons_zero, Option.some_inj] at hm
      subst hm
      have hnotin : x ∉ rest := (List.nodup_cons.1 hnd).1
      rw [applyGroupAux_getElem_not_mem rest _ (k + 1) x hnotin]
      rw [renameAt_getElem_self vs x (k + 1) v hv]
    | succ mm =>
      simp only [List.getElem?_cons_succ] at hm
      have hirest : i ∈ rest := List.getElem?_mem hm
      have hxi : x ≠ i := fun he => (List.nodup_cons.1 hnd).1 (he ▸ hirest)
      have hv2 : (renameAt vs x (k + 1))[i]? = some v := by
        rw [renameAt_getElem_ne vs x i (k + 1) hxi]
        exact hv
      rw [ih (renameAt vs x (k + 1)) (k + 1) mm i v (List.nodup_cons.1 hnd).2 hm hv2]
      rw [show k + 1 + mm + 1 = k + (mm + 1) + 1 from by omega]

theorem mem_groupIdxAux (n : String) :
    ∀ (vs : List DebugVariable) (s i : Nat), i ∈ groupIdxAux n vs s →
      s ≤ i ∧ ∃ v, vs[i - s]? = some v ∧ isShadowed v = true ∧ v.name = n := by
  intro vs
  induction vs with
  | nil => intro s i h; simp [groupIdxAux] at h
  | cons v0 rest ih =>
    intro s i h
    rw [groupIdxAux] at h
    by_cases hc : (isShadowed v0 && v0.name == n) = true
    · rw [if_pos hc] at h
      have hc2 : isShadowed v0 = true ∧ (v0.name == n) = true := by
        rw [Bool.and_eq_true] at hc
        exact hc
      rcases List.mem_cons.1 h with rfl | hm
      · refine ⟨Nat.le_refl _, v0, ?_, hc2.1, eq_of_beq hc2.2⟩
        simp
      · obtain ⟨hle, v, hv, hsh, hn⟩ := ih (s + 1) i hm
        refine ⟨by omega, v, ?_, hsh, hn⟩
        have h1 : i - s = (i - (s + 1)) + 1 := by omega
        rw [h1, List.getElem?_cons_succ]
        exact hv
    · rw [if_neg hc] at h
      obtain ⟨hle, v, hv, hsh, hn⟩ := ih (s + 1) i h
      refine ⟨by omega, v, ?_, hsh, hn⟩
      have h1 : i - s = (i - (s + 1)) + 1 := by omega
      rw [h1, List.getElem?_cons_succ]
      exact hv

theorem mem_groupIdx (vars : List DebugVariable) (n : String) (i : Nat)
    (h : i ∈ groupIdx vars n) :
    ∃ v, vars[i]? = some v ∧ isShadowed v = true ∧ v.name = n := by
  obtain ⟨-, v, hv, hsh, hn⟩ := mem_groupIdxAux n vars 0 i h
  rw [Nat.sub_zero] at hv
  exact ⟨v, hv, hsh, hn⟩

theorem groupIdxAux_nodup (n : String) :
    ∀ (vs : List DebugVariable) (s : Nat), (groupIdxAux n vs s).Nodup := by
  intro vs
  induction vs with
  | nil => intro s; simp [groupIdxAux]
  | cons v0 rest ih =>
    intro s
    rw [groupIdxAux]
    by_cases hc : (isShadowed v0 && v0.name == n) = true
    · rw [if_pos hc]
      refine List.nodup_cons.2 ⟨?_, ih (s + 1)⟩
      intro hmem
      have := (mem_groupIdxAux n rest (s + 1) s hmem).1
      omega
    · rw [if_neg hc]
      exact ih (s + 1)

theorem groupIdx_name_unique (vars : List DebugVariable) (n n2 : String) (i : Nat)
    (h1 : i ∈ groupIdx vars n) (h2 : i ∈ groupIdx vars n2) : n = n2 := by
  obtain ⟨v, hv, -, hn⟩ := mem_groupIdx vars n i h1
  obtain ⟨w, hw, -, hn2⟩ := mem_groupIdx vars n2 i h2
  rw [hv] at hw
  rw [← hn, ← hn2, Option.some.inj hw]

theorem mem_dedupKeepFirst (a : String) (l : List String) :
    a ∈ dedupKeepFirst l ↔ a ∈ l := by
  induction l using dedupKeepFirst.induct with
  | case1 => rw [dedupKeepFirst]
  | case2 n rest ih =>
    rw [dedupKeepFirst]
    constructor
    · intro h
      rcases List.mem_cons.1 h with he | hm
      · exact he ▸ List.mem_cons_self n rest
      · exact List.mem_cons_of_mem n (List.mem_filter.1 (ih.1 hm)).1
    · intro h
      rcases List.mem_cons.1 h with he | hm
      · exact he ▸ List.mem_cons_self n _
      · by_cases he : a = n
        · exact he ▸ List.mem_cons_self n _
        · exact List.mem_cons_of_mem n (ih.2 (List.mem_filter.2 ⟨hm, by simp [he]⟩))

theorem nodup_dedupKeepFirst (l : List String) : (dedupKeepFirst l).Nodup := by
  induction l using dedupKeepFirst.induct with
  | case1 => rw [dedupKeepFirst]; exact List.nodup_nil
  | case2 n rest ih =>
    rw [dedupKeepFirst]
    refine List.nodup_cons.2 ⟨?_, ih⟩
    intro hmem
    have := (List.mem_filter.1 ((mem_dedupKeepFirst n _).1 hmem)).2
    simp at this

theorem mem_sortDesc (vars : List DebugVariable) (idxs : List Nat) (i : Nat) :
    i ∈ sortDesc vars idxs ↔ i ∈ idxs :=
  (List.perm_insertionSort _ idxs).mem_iff

theorem nodup_sortDesc (vars : List DebugVariable) (idxs : List Nat) (h : idxs.Nodup) :
    (sortDesc vars idxs).Nodup :=
  (List.Perm.nodup_iff (List.perm_insertionSort _ idxs)).2 h

theorem foldGroups_getElem_not_mem (vars : List DebugVariable) (i : Nat) :
    ∀ (ns : List String) (vs : List DebugVariable),
      (∀ n ∈ ns, i ∉ sortDesc vars (groupIdx vars n)) →
      (ns.foldl (fun vs n => applyGroup vs (sortDesc vars (groupIdx vars n))) vs)[i]? =
        vs[i]? := by
  intro ns
  induction ns with
  | nil => intro vs h; rfl
  | cons n rest ih =>
    intro vs h
    rw [List.foldl_cons]
    rw [ih _ (fun m hm => h m (List.mem_cons_of_mem n hm))]
    exact applyGroupAux_getElem_not_mem _ vs 0 i (h n (List.mem_cons_self n rest))

theorem foldGroups_getElem_mem (vars : List DebugVariable) (n0 : String) (i k : Nat)
    (v : DebugVariable)
    (hg : (sortDesc vars (groupIdx vars n0))[k]? = some i)
    (hgnd : (sortDesc vars (groupIdx vars n0)).Nodup) :
    ∀ (ns : List String) (vs : List DebugVariable), ns.Nodup → n0 ∈ ns →
      (∀ n ∈ ns, n ≠ n0 → i ∉ sortDesc vars (groupIdx vars n)) →
      vs[i]? = some v →
      (ns.foldl (fun vs n => applyGroup vs (sortDesc vars (groupIdx vars n))) vs)[i]? =
        some (v.withName (wrapParens (k + 1) v.name)) := by
  intro ns
  induction ns with
  | nil => intro vs hnd h0 hother hv; simp at h0
  | cons n rest ih =>
    intro vs hnd h0 hother hv
    rw [List.foldl_cons]
    by_cases he : n = n0
    · subst he
      have hnotin : ∀ m ∈ rest, i ∉ sortDesc vars (groupIdx vars m) := by
        intro m hm
        by_cases hm0 : m = n
        · subst hm0
          exact absurd hm (List.nodup_cons.1 hnd).1
        · exact hother m (List.mem_cons_of_mem n hm) hm0
      rw [foldGroups_getElem_not_mem vars i rest _ hnotin]
      have happ := applyGroupAux_getElem_mem
        (sortDesc vars (groupIdx vars n)) vs 0 k i v hgnd hg hv
      rw [show 0 + k + 1 = k + 1 from by omega] at happ
      exact happ
    · have hpres : (applyGroup vs (sortDesc vars (groupIdx vars n)))[i]? = some v := by
        rw [show applyGroup vs (sortDesc vars (groupIdx vars n)) =
            applyGroupAux vs (sortDesc vars (groupIdx vars n)) 0 from rfl]
        rw [applyGroupAux_getElem_not_mem _ vs 0 i
          (hother n (List.mem_cons_self n rest) he)]
        exact hv
      exact ih _ (List.nodup_cons.1 hnd).2
        ((List.mem_cons.1 h0).resolve_left fun hh => he hh.symm)
        (fun m hm hm0 => hother m (List.mem_cons_of_mem n hm) hm0)
        hpres

/-- Claim C6: in the scopes listing, variables not flagged shadowed keep
their entries (and names) unchanged; among the variables flagged shadowed
that share a name, after sorting the group by DeclLine in descending order
the k-th member's displayed name is its original name wrapped in exactly
k+1 layers of parentheses, yielding the sequence (x), ((x)), (((x))), …. -/
theorem scopes_shadow_naming (vars : List DebugVariable) :
    (∀ (i : Nat) (v : DebugVariable), vars[i]? = some v → isShadowed v = false →
      (annotateShadowed vars)[i]? = some v) ∧
    (∀ (n : String) (k i : Nat) (v : DebugVariable),
      (sortDesc vars (groupIdx vars n))[k]? = some i → vars[i]? = some v →
      (annotateShadowed vars)[i]? = some (v.withName (wrapParens (k + 1) v.name))) := by
  constructor
  · intro i v hv hsh
    rw [annotateShadowed]
    rw [foldGroups_getElem_not_mem vars i (shadowedNames vars) vars ?_]
    · exact hv
    · intro n hn hmem
      rw [mem_sortDesc] at hmem
      obtain ⟨w, hw, hwsh, -⟩ := mem_groupIdx vars n i hmem
      rw [hv] at hw
      rw [← Option.some.inj hw] at hwsh
      rw [hsh] at hwsh
      exact Bool.false_ne_true hwsh
  · intro n k i v hg hv
    have himem : i ∈ groupIdx vars n := (mem_sortDesc vars _ i).1 (List.getElem?_mem hg)
    obtain ⟨w, hw, hwsh, hwname⟩ := mem_groupIdx vars n i himem
    have hn0 : n ∈ shadowedNames vars := by
      rw [shadowedNames, mem_dedupKeepFirst, List.mem_map]
      refine ⟨w, ?_, hwname⟩
      rw [List.mem_filter]
      exact ⟨List.getElem?_mem hw, hwsh⟩
    rw [annotateShadowed]
    exact foldGroups_getElem_mem vars n i k v hg
      (nodup_sortDesc vars _ (groupIdxAux_nodup n vars 0))
      (shadowedNames vars) vars (nodup_dedupKeepFirst _) hn0
      (fun m hm hne hmem => hne (groupIdx_name_unique vars m n i
        ((mem_sortDesc vars _ i).1 hmem) himem))
      hv

theorem scopes_shadow_naming_witness :
    ((sortDesc exampleShadowVars (groupIdx exampleShadowVars "x"))[1]? = some 0) ∧
    (exampleShadowVars[0]? = some (DebugVariable.mk "x" 2 20 "" [])) ∧
    (annotateShadowed exampleShadowVars)[0]? =
      some ((DebugVariable.mk "x" 2 20 "" []).withName (wrapParens 2 "x")) := by
  refine ⟨rfl, rfl, ?_⟩
  have h := (scopes_shadow_naming exampleShadowVars).2 "x" 1 0
    (DebugVariable.mk "x" 2 20 "" []) rfl rfl
  exact h

/-- Claim C8 counterexample: after `addFullyQualifiedName`, the child of a
top-level variable has fully-qualified name equal to the parent's name alone
("p"), not `<parent-fqn>.<child-name>` ("p.c"). -/
theorem add_fqn_child_counterexample :
    (((addFullyQualifiedName [.mk "p" 0 0 "" [.mk "c" 0 0 "" []]]).headD
        default).children.headD default).fqn = "p" ∧
    ¬ (((addFullyQualifiedName [.mk "p" 0 0 "" [.mk "c" 0 0 "" []]]).headD
        default).children.headD default).fqn = "p" ++ "." ++ "c" := by
  refine ⟨rfl, ?_⟩
  intro h
  simp [addFullyQualifiedName, DebugVariable.withFqn, DebugVariable.children,
    DebugVariable.fqn, List.headD] at h

/-- Claim C8 (amended): on listing, every top-level local or argument is
assigned its own name as fully-qualified name, and every child of such a
variable is assigned the parent's name (without a `"." + child.name`
component; the `<parent-fqn>.<child-name>` form is only produced later,
during rendering in `convertDebugVariableToProtocolVariable`). -/
theorem add_fqn_assignment (vars : List DebugVariable) :
    ∀ v ∈ addFullyQualifiedName vars,
      v.fqn = v.name ∧ ∀ c ∈ v.children, c.fqn = v.name := by
  intro v hv
  simp only [addFullyQualifiedName, List.mem_map] at hv
  obtain ⟨w, hw, hveq⟩ := hv
  cases w with
  | mk n f d q c =>
    subst hveq
    refine ⟨rfl, ?_⟩
    intro ch hch
    simp only [DebugVariable.children, List.mem_map] at hch
    obtain ⟨c0, hc0, hcheq⟩ := hch
    cases c0 with
    | mk cn cf cd cq cc =>
      subst hcheq
      rfl

theorem add_fqn_assignment_witness :
    (DebugVariable.mk "x" 0 0 "x" []) ∈ addFullyQualifiedName [.mk "x" 0 0 "" []] ∧
    ((DebugVariable.mk "x" 0 0 "x" []).fqn = (DebugVariable.mk "x" 0 0 "x" []).name ∧
      ∀ c ∈ (DebugVariable.mk "x" 0 0 "x" []).children,
        c.fqn = (DebugVariable.mk "x" 0 0 "x" []).name) :=
  ⟨List.mem_singleton.mpr rfl,
    add_fqn_assignment [.mk "x" 0 0 "" []] (DebugVariable.mk "x" 0 0 "x" [])
      (List.mem_singleton.mpr rfl)⟩
